import Mathlib

/-!
Verification development for the Shree-Balaji payroll application
(`src/api/index.py`).  The data model and the operations are shallowly
embedded: relational rows become structures, the store becomes lists of
rows, fallible operations return `Except String Store`, monetary values
are modelled by exact rationals, and SQL statements are translated to the
corresponding list manipulations.
-/

namespace Payroll

/-- A calendar date as stored in the SQL `DATE` columns (year, month, day). -/
structure PDate where
  y : Nat
  m : Nat
  d : Nat
deriving DecidableEq, Repr

/-- Row of the `workers` table (schema from `Database.create_tables`). -/
structure Worker where
  id : Nat
  name : String
  daily_wage : ℚ
  phone : String
  start_date : String
deriving DecidableEq, Repr

/-- Row of the `attendance` table: `UNIQUE(worker_id, date)` in the schema. -/
structure AttRow where
  worker_id : Nat
  date : PDate
  status : String
deriving DecidableEq, Repr

/-- Row of the `advances` table. -/
structure AdvRow where
  worker_id : Nat
  amount : ℚ
  date : PDate
  note : String
deriving DecidableEq, Repr

/-- Row of the `holidays` table (`date` is `UNIQUE`). -/
structure Holiday where
  id : Nat
  date : PDate
  name : String
  kind : String
  description : String
deriving DecidableEq, Repr

/-- The durable state: the four tables of the relational store. -/
structure Store where
  workers : List Worker
  attendance : List AttRow
  advances : List AdvRow
  holidays : List Holiday
deriving DecidableEq, Repr

/-- The key predicate of the attendance `UNIQUE(worker_id, date)` constraint. -/
def attKeyB (wid : Nat) (dt : PDate) (a : AttRow) : Bool :=
  decide (a.worker_id = wid) && decide (a.date = dt)

/-- The store invariant corresponding to `UNIQUE(worker_id, date)`:
no two attendance rows share the (worker_id, date) key. -/
def attKeyNodup (l : List AttRow) : Prop :=
  l.Pairwise (fun a b => ¬ (a.worker_id = b.worker_id ∧ a.date = b.date))

/-- The allowed statuses of `Database.mark_attendance`
(`['Present', 'Half Day', 'Absent', 'unmarked']`). -/
def validStatuses : List String := ["Present", "Half Day", "Absent", "unmarked"]

/-- The SQL `INSERT ... ON CONFLICT (worker_id, date) DO UPDATE SET status`
of `Database.mark_attendance`: if a row with the key exists its status is
overwritten, otherwise a new row is appended. -/
def upsertAtt (l : List AttRow) (wid : Nat) (dt : PDate) (st : String) : List AttRow :=
  if l.any (attKeyB wid dt) then
    l.map (fun a => if attKeyB wid dt a then { a with status := st } else a)
  else
    l ++ [⟨wid, dt, st⟩]

/-- `Database.mark_attendance(worker_id, date_str, status)`.  The arguments
come from the request body, so each may be missing (`None`): a missing or
zero worker id and a missing date are "falsy" and rejected first, exactly
as `if not worker_id or not date_str` does; an invalid (or missing) status
is rejected next; then the worker-existence check; `unmarked` deletes the
row, any other status upserts.  (The returned `is_holiday` annotation is
not modelled; the API handler discards it.) -/
def mark_attendance (s : Store) (wid? : Option Nat) (dt? : Option PDate)
    (status? : Option String) : Except String Store :=
  match wid?, dt? with
  | some wid, some dt =>
    if wid = 0 then .error "Worker ID and date are required"
    else
      match status? with
      | none => .error "Invalid attendance status"
      | some st =>
        if ¬ validStatuses.contains st then .error "Invalid attendance status"
        else if ¬ s.workers.any (fun w => decide (w.id = wid)) then
          .error ("Worker with ID " ++ toString wid ++ " not found")
        else if st = "unmarked" then
          .ok { s with attendance := s.attendance.filter (fun a => ¬ attKeyB wid dt a) }
        else
          .ok { s with attendance := upsertAtt s.attendance wid dt st }
  | _, _ => .error "Worker ID and date are required"

/-- The SQL query of `Database.get_attendance`: rows of one worker whose
date falls in the given year and month.  The `ORDER BY date DESC` clause
only permutes the result and is omitted; the in-process cache consulted
before the query is modelled separately (see the lock model below). -/
def get_attendance (s : Store) (wid : Nat) (year month : Nat) : List AttRow :=
  s.attendance.filter
    (fun a => decide (a.worker_id = wid) && decide (a.date.y = year) && decide (a.date.m = month))

/-- The SQL query of `Database.get_advances` (again minus `ORDER BY`). -/
def get_advances (s : Store) (wid : Nat) (year month : Nat) : List AdvRow :=
  s.advances.filter
    (fun a => decide (a.worker_id = wid) && decide (a.date.y = year) && decide (a.date.m = month))

/-- `Database.add_advance(worker_id, amount, date_str, note)`: the falsy
worker-id check, the amount validations (positive, per-transaction cap of
50,000), the date-required check, the worker-existence check, the monthly
100,000 ceiling over the advances of the same calendar month, and finally
the insert. -/
def add_advance (s : Store) (wid : Nat) (amount : ℚ) (dt? : Option PDate)
    (note : String) : Except String Store :=
  if wid = 0 then .error "Worker ID is required"
  else if amount ≤ 0 then .error "Advance amount must be greater than 0"
  else if amount > 50000 then .error "Advance amount seems too high (max: 50,000)"
  else
    match dt? with
    | none => .error "Date is required"
    | some dt =>
      if ¬ s.workers.any (fun w => decide (w.id = wid)) then
        .error ("Worker with ID " ++ toString wid ++ " not found")
      else
        let total := (s.advances.filter (fun a =>
          decide (a.worker_id = wid) && decide (a.date.y = dt.y) && decide (a.date.m = dt.m))).foldl
          (fun acc a => acc + a.amount) 0
        if total + amount > 100000 then
          .error "Total advances for the month would exceed 100,000"
        else
          .ok { s with advances := s.advances ++ [⟨wid, amount, dt, note⟩] }

/-- `Database.delete_worker(worker_id)`: falsy check, existence check
(raising `Worker with ID ... not found` when absent), then the three
`DELETE` statements of the transaction — attendance rows, advance rows and
the worker row itself.  Holidays are not touched. -/
def delete_worker (s : Store) (wid : Nat) : Except String Store :=
  if wid = 0 then .error "Worker ID is required"
  else if ¬ s.workers.any (fun w => decide (w.id = wid)) then
    .error ("Worker with ID " ++ toString wid ++ " not found")
  else
    .ok { s with
      attendance := s.attendance.filter (fun a => ¬ decide (a.worker_id = wid)),
      advances := s.advances.filter (fun a => ¬ decide (a.worker_id = wid)),
      workers := s.workers.filter (fun w => ¬ decide (w.id = wid)) }

/-- Python `str.strip()` on a character list: drop whitespace from both
ends. -/
def pyStripList (l : List Char) : List Char :=
  ((l.dropWhile Char.isWhitespace).reverse.dropWhile Char.isWhitespace).reverse

/-- Python `str.strip()`. -/
def pyStrip (s : String) : String := ⟨pyStripList s.data⟩

/-- Python `str.lower()` (ASCII case folding, as SQL `LOWER` applies to the
names here). -/
def pyLower (s : String) : String := ⟨s.data.map Char.toLower⟩

/-- Columns of the `workers` table as created by `Database.create_tables`. -/
def workersTableCols : List String :=
  ["id", "name", "daily_wage", "phone", "start_date", "created_at"]

/-- Columns assigned by the `UPDATE workers SET ...` statement of
`Database.update_worker`. -/
def updateWorkerSetCols : List String := ["name", "daily_wage", "updated_at"]

/-- `Database.update_worker(worker_id, name, daily_wage)`: the Python-side
validations (falsy id, empty/whitespace name, non-positive wage, the
5,000 daily-wage cap), the existence check, the case-insensitive duplicate
check excluding the worker itself, and then the `UPDATE` statement.  The
`UPDATE` is modelled with PostgreSQL's column resolution: assigning a
column the table does not have makes the statement fail, which the Python
code turns into a raised exception after `ROLLBACK`. -/
def update_worker (s : Store) (wid : Nat) (name : String) (daily_wage : ℚ) :
    Except String Store :=
  if wid = 0 then .error "Worker ID is required"
  else if pyStrip name = "" then .error "Worker name cannot be empty"
  else if daily_wage ≤ 0 then .error "Daily wage must be greater than 0"
  else if daily_wage > 5000 then .error "Daily wage seems too high (max: 5,000)"
  else
    let nm := pyStrip name
    if ¬ s.workers.any (fun w => decide (w.id = wid)) then .error "Worker not found"
    else if s.workers.any (fun w => decide (pyLower w.name = pyLower nm) && ¬ decide (w.id = wid)) then
      .error ("Worker '" ++ nm ++ "' already exists")
    else
      match updateWorkerSetCols.find? (fun c => ¬ workersTableCols.contains c) with
      | some c => .error ("column " ++ c ++ " of relation workers does not exist")
      | none =>
        .ok { s with workers := s.workers.map (fun w =>
          if w.id = wid then { w with name := nm, daily_wage := daily_wage } else w) }

/-- Response shape of the `/api/summary/<worker_id>` handler `get_summary`. -/
structure Summary where
  present_days : Nat
  absent_days : Nat
  total_working_days : Nat
  total_earnings : ℚ
  total_advances : ℚ
  net_salary : ℚ
deriving DecidableEq, Repr

/-- The aggregation performed by the `get_summary` handler on the fetched
attendance and advance rows of one worker and month: `present_days` and
`absent_days` are counted, `total_working_days = len(attendance)`,
`total_earnings = present_days * daily_wage`, `total_advances` sums the
advance amounts, `net_salary = total_earnings - total_advances`.  Note the
handler credits nothing for `Half Day` rows. -/
def get_summary_calc (daily_wage : ℚ) (attendance : List AttRow)
    (advances : List AdvRow) : Summary :=
  let present_days := (attendance.filter (fun a => decide (a.status = "Present"))).length
  let absent_days := (attendance.filter (fun a => decide (a.status = "Absent"))).length
  let total_working_days := attendance.length
  let total_earnings := (present_days : ℚ) * daily_wage
  let total_advances := advances.foldl (fun acc a => acc + a.amount) 0
  ⟨present_days, absent_days, total_working_days, total_earnings, total_advances,
    total_earnings - total_advances⟩

/-- Per-worker entry of the `/api/reports/payroll` response. -/
structure PayrollRow where
  present_days : Nat
  half_days : Nat
  total_days : ℚ
  gross_salary : ℚ
  advances : ℚ
  net_salary : ℚ
deriving DecidableEq, Repr

/-- The per-worker aggregation of the `get_payroll_report` handler:
`gross_salary = present_days*daily_wage + half_days*daily_wage/2`, the
worker's advances are summed, `net_salary = gross_salary - advances`
(no floor at zero). -/
def payroll_row_calc (daily_wage : ℚ) (attendance : List AttRow)
    (advances : List AdvRow) : PayrollRow :=
  let present_days := (attendance.filter (fun a => decide (a.status = "Present"))).length
  let half_days := (attendance.filter (fun a => decide (a.status = "Half Day"))).length
  let total_days := (present_days : ℚ) + (half_days : ℚ) * (1/2)
  let gross_salary := (present_days : ℚ) * daily_wage + (half_days : ℚ) * daily_wage / 2
  let worker_advances := advances.foldl (fun acc a => acc + a.amount) 0
  ⟨present_days, half_days, total_days, gross_salary, worker_advances,
    gross_salary - worker_advances⟩

/-- Modelled from the spec's words, for comparison with the code-derived
summaries: `netPay = N*W + H*W/2 - A` for `N` present days, `H` half-days,
daily wage `W` and total advances `A`. -/
def specNetPay (W : ℚ) (N H : Nat) (A : ℚ) : ℚ :=
  (N : ℚ) * W + (H : ℚ) * W / 2 - A

/-- Python `str(n).zfill(2)` for a natural number. -/
def zfill2 (n : Nat) : String :=
  if n < 10 then "0" ++ toString n else toString n

/-- The date key built by `get_attendance_report` for each day of the month
(the f-string with zero-filled month and day), which also matches the
`strftime` format used for the holiday and attendance dictionaries. -/
def date_key (year month day : Nat) : String :=
  toString year ++ "-" ++ zfill2 month ++ "-" ++ zfill2 day

/-- Lookup in a Python dict built by a comprehension over an association
list: a later binding of the same key overwrites an earlier one. -/
def dictGet : List (String × String) → String → Option String
  | [], _ => none
  | (k, v) :: rest, key =>
    match dictGet rest key with
    | some r => some r
    | none => if k = key then some v else none

/-- The four counters of the day-classification loop of
`get_attendance_report`. -/
structure DayCounts where
  present : Nat
  absent : Nat
  holiday : Nat
  half : Nat
deriving DecidableEq, Repr

/-- One iteration of the classification loop: a day is a holiday if its key
is among the holiday dates; otherwise it takes the worker's recorded status
(`Present` / `Half Day` / `Absent`, any unrecognized status counted as
absent); otherwise it defaults to absent. -/
def classify_day (holiday_dates : List String) (att_dict : List (String × String))
    (acc : DayCounts) (ds : String) : DayCounts :=
  if holiday_dates.contains ds then { acc with holiday := acc.holiday + 1 }
  else
    match dictGet att_dict ds with
    | some st =>
      if st = "Present" then { acc with present := acc.present + 1 }
      else if st = "Half Day" then { acc with half := acc.half + 1 }
      else if st = "Absent" then { acc with absent := acc.absent + 1 }
      else { acc with absent := acc.absent + 1 }
    | none => { acc with absent := acc.absent + 1 }

/-- The date keys of the loop `for day in range(1, days_in_month + 1)`. -/
def month_day_keys (year month days_in_month : Nat) : List String :=
  (List.range' 1 days_in_month).map (date_key year month)

/-- The classification loop of `get_attendance_report` for one worker. -/
def attendance_counts (year month days_in_month : Nat) (holiday_dates : List String)
    (att_dict : List (String × String)) : DayCounts :=
  (month_day_keys year month days_in_month).foldl
    (classify_day holiday_dates att_dict) ⟨0, 0, 0, 0⟩

/-- The `attendance_percentage` local of `get_attendance_report`:
`((present + half*0.5) / working_days) * 100 if working_days > 0 else 0`. -/
def attendance_percentage_calc (present half working_days : Nat) : ℚ :=
  if working_days > 0 then
    (((present : ℚ) + (half : ℚ) * (1/2)) / (working_days : ℚ)) * 100
  else 0

/-- Python 3 `round` to an integer in exact arithmetic: nearest integer,
ties to the even integer (banker's rounding). -/
def pyRound (q : ℚ) : ℤ :=
  let f := ⌊q⌋
  let frac := q - (f : ℚ)
  if frac < 1/2 then f
  else if frac > 1/2 then f + 1
  else if f % 2 = 0 then f else f + 1

/-- Python `round(x, 1)` in exact arithmetic. -/
def pyRound1 (q : ℚ) : ℚ := (pyRound (q * 10) : ℚ) / 10

/-- Per-worker entry of the `/api/reports/attendance` response. -/
structure AttReportRow where
  present_days : Nat
  half_days : Nat
  absent_days : Nat
  holidays : Nat
  total_working_days : Nat
  attendance_percentage : ℚ
deriving DecidableEq, Repr

/-- The per-worker report row of `get_attendance_report`: the counts of the
classification loop, `working_days = days_in_month - holiday_count`, and the
percentage (rounded to one decimal for the JSON payload, as the handler
does with `round(..., 1)`). -/
def attendance_report_row (year month days_in_month : Nat)
    (holiday_dates : List String) (att_dict : List (String × String)) : AttReportRow :=
  let c := attendance_counts year month days_in_month holiday_dates att_dict
  let working_days := days_in_month - c.holiday
  let pct := attendance_percentage_calc c.present c.half working_days
  ⟨c.present, c.half, c.absent, c.holiday, working_days, pyRound1 pct⟩

/-- Body shape of the JSON responses of the mark-attendance endpoint; absent
keys are `none`. -/
structure ApiResponse where
  success : Bool
  error : Option String
  message : Option String
  holiday_warning : Option String
  worker_name : Option String
deriving DecidableEq, Repr

/-- The `/api/mark_attendance` handler `mark_attendance_api`: it calls
`db.mark_attendance` inside one `try`; any exception — validation failure
or unknown worker alike — is answered with HTTP 500 and
`{'success': False, 'error': str(e)}`, and a success is answered with
HTTP 200 and the body `{'success': True}` only. -/
def mark_attendance_api (s : Store) (wid? : Option Nat) (dt? : Option PDate)
    (status? : Option String) : Nat × ApiResponse :=
  match mark_attendance s wid? dt? status? with
  | .error msg => (500, ⟨false, some msg, none, none, none⟩)
  | .ok _ => (200, ⟨true, none, none, none, none⟩)

/-!  Module-initialization model for `src/api/index.py` (claim C2).
Python executes module-level statements in order; a statement that
references a name neither built in nor bound by an earlier statement
raises `NameError`.  Each relevant statement is recorded with its source
line, the module-level names it reads and the names it binds. -/

/-- One module-level Python statement: source line, names it reads at
execution time, names it binds. -/
structure PyStmt where
  line : Nat
  uses : List String
  binds : List String
deriving DecidableEq, Repr

/-- The module-level statements of `src/api/index.py` up to and including
the configuration block (lines 1-47), followed by the later imports that
would bind `timedelta` (lines 521-522).  Function and class bodies run
only when called, so a `def`/`class` statement just binds its name (its
decorator expression is evaluated at definition time). -/
def moduleStmts : List PyStmt := [
  ⟨1, [], ["os"]⟩,
  ⟨2, [], ["time"]⟩,
  ⟨3, [], ["threading"]⟩,
  ⟨4, [], ["psycopg2"]⟩,
  ⟨5, [], ["psycopg2.extras"]⟩,
  ⟨6, [], ["Flask", "render_template", "request", "jsonify", "redirect",
          "url_for", "session", "flash"]⟩,
  ⟨7, [], ["datetime", "date"]⟩,
  ⟨8, [], ["calendar"]⟩,
  ⟨9, [], ["wraps"]⟩,
  ⟨10, [], ["secrets"]⟩,
  ⟨11, [], ["Optional"]⟩,
  ⟨13, [], ["HinduCalendar"]⟩,
  ⟨16, ["os", "__file__"], ["_cwd"]⟩,
  ⟨17, ["Flask", "os", "_cwd"], ["app"]⟩,
  ⟨22, ["app"], ["before_request"]⟩,
  ⟨27, ["app"], ["after_request"]⟩,
  ⟨36, ["app", "os", "secrets"], []⟩,
  ⟨37, ["app"], []⟩,
  ⟨38, ["app"], []⟩,
  ⟨39, ["app"], []⟩,
  ⟨40, ["app", "timedelta"], []⟩,
  ⟨41, ["app"], []⟩,
  ⟨44, ["app"], ["handle_exception"]⟩,
  ⟨50, [], ["validate_password"]⟩,
  ⟨63, [], ["SimpleConnectionPool"]⟩,
  ⟨64, [], ["logging"]⟩,
  ⟨67, ["logging"], []⟩,
  ⟨68, ["logging"], ["logger"]⟩,
  ⟨70, [], ["Database"]⟩,
  ⟨510, ["Database"], ["db"]⟩,
  ⟨511, ["HinduCalendar"], ["hindu_calendar"]⟩,
  ⟨514, ["app"], ["cleanup_db_pool"]⟩,
  ⟨521, [], ["lru_cache"]⟩,
  ⟨522, [], ["datetime", "timedelta"]⟩]

/-- Names available before any statement runs (dunder globals; library
builtins play no role in the statements modelled). -/
def initialEnv : List String := ["__file__", "__name__"]

/-- First name of `uses` that the environment does not bind. -/
def firstUnbound (env : List String) (uses : List String) : Option String :=
  uses.find? (fun u => ¬ env.contains u)

/-- Sequential execution of the module-level statements: stops with
`(line, name)` at the first statement referencing an unbound `name`
(Python's `NameError`), otherwise returns the final environment. -/
def runModule : List PyStmt → List String → Except (Nat × String) (List String)
  | [], env => .ok env
  | st :: rest, env =>
    match firstUnbound env st.uses with
    | some u => .error (st.line, u)
    | none => runModule rest (env ++ st.binds)

/-!  Lock model for the in-process `Cache` (claim C3).  The cache's
`threading.Lock` is non-reentrant: a thread acquiring it while already
holding it blocks forever.  Each cache method is translated to its
structure of `with self._lock:` blocks and nested method calls; running a
program tracks the current thread's hold depth, and an acquisition at
nonzero depth is a deadlock (no result). -/

/-- Lock-relevant structure of a code block: plain work, a
`with self._lock:` block, or sequencing. -/
inductive LockProg where
  | work : LockProg
  | withLock : LockProg → LockProg
  | seq : LockProg → LockProg → LockProg
deriving DecidableEq, Repr

/-- Run a block at a given hold depth of the single non-reentrant lock;
`none` means the thread blocked forever on an acquisition. -/
def runLockProg : LockProg → Nat → Option Nat
  | .work, d => some d
  | .withLock p, d =>
    if d = 0 then (runLockProg p 1).map (fun _ => 0) else none
  | .seq p q, d => (runLockProg p d).bind (runLockProg q)

/-- `Cache.delete`: one `with self._lock:` block. -/
def cache_delete_prog : LockProg := .withLock .work

/-- Sequence `n` copies of a block (the per-key loop of `cleanup`). -/
def repeatProg : Nat → LockProg → LockProg
  | 0, _ => .work
  | n + 1, p => .seq p (repeatProg n p)

/-- `Cache.cleanup`: a `with self._lock:` block that scans the timeouts and
calls `self.delete(k)` for each of the `expired` keys. -/
def cache_cleanup_prog (expired : Nat) : LockProg :=
  .withLock (.seq .work (repeatProg expired cache_delete_prog))

/-- `Cache.get`: `with self._lock:` then `self.cleanup()` then the lookup. -/
def cache_get_prog (expired : Nat) : LockProg :=
  .withLock (.seq (cache_cleanup_prog expired) .work)

/-- `Cache.set`: `with self._lock:` then `self.cleanup()`, possibly an LRU
`self.delete(lru_key)`, then the stores. -/
def cache_set_prog (expired : Nat) (evict : Bool) : LockProg :=
  .withLock (.seq (cache_cleanup_prog expired)
    (.seq (if evict then cache_delete_prog else .work) .work))

/-- A call terminates when running it from the unlocked state yields a
result. -/
def lockTerminates (p : LockProg) : Bool := (runLockProg p 0).isSome

/-!  Spec-side day-classification predicates for the attendance report
(claim C6): a day key is a holiday when it is in the holiday set; a
non-holiday day counts as present / half-day by the recorded status, and
as absent otherwise (recorded `Absent`, an unrecognized status, or no
record at all). -/

/-- Day counted as holiday. -/
def isHolB (hols : List String) (ds : String) : Bool := hols.contains ds

/-- Day counted as present: not a holiday and recorded `Present`. -/
def isPresB (hols : List String) (att : List (String × String)) (ds : String) : Bool :=
  !hols.contains ds && decide (dictGet att ds = some "Present")

/-- Day counted as half-day: not a holiday and recorded `Half Day`. -/
def isHalfB (hols : List String) (att : List (String × String)) (ds : String) : Bool :=
  !hols.contains ds && decide (dictGet att ds = some "Half Day")

/-- Day counted as absent: not a holiday and recorded neither `Present`
nor `Half Day`. -/
def isAbsB (hols : List String) (att : List (String × String)) (ds : String) : Bool :=
  !hols.contains ds && !(decide (dictGet att ds = some "Present"))
    && !(decide (dictGet att ds = some "Half Day"))

/-!  Concrete fixtures used by witnesses and counterexamples. -/

/-- A store with no rows at all. -/
def emptyStore : Store := ⟨[], [], [], []⟩

/-- A store as created by `create_tables` holding one worker. -/
def raviStore : Store := ⟨[⟨1, "Ravi", 500, "", ""⟩], [], [], []⟩

/-- A store with two workers, each with an attendance row and an advance
row, plus one holiday. -/
def twoWorkerStore : Store :=
  ⟨[⟨1, "Ravi", 600, "", ""⟩, ⟨2, "Shyam", 400, "", ""⟩],
   [⟨1, ⟨2025, 6, 1⟩, "Present"⟩, ⟨2, ⟨2025, 6, 1⟩, "Absent"⟩],
   [⟨1, 500, ⟨2025, 6, 2⟩, ""⟩, ⟨2, 200, ⟨2025, 6, 3⟩, ""⟩],
   [⟨7, ⟨2025, 6, 15⟩, "Foundation Day", "manual", ""⟩]⟩

/-- A single `Half Day` attendance row, wage 600, no advances: the input on
which the `/api/summary` aggregation departs from the spec formula. -/
def c1HalfDayRow : AttRow := ⟨1, ⟨2025, 6, 2⟩, "Half Day"⟩

/-!  Theorems. -/

/-- Folding addition of advance amounts equals the sum of the amounts. -/
theorem foldl_add_amount (l : List AdvRow) (acc : ℚ) :
    l.foldl (fun acc a => acc + a.amount) acc = acc + (l.map (fun a => a.amount)).sum := by
  induction l generalizing acc with
  | nil => simp
  | cons a t ih => simp [ih]; ring

/-- C2: module-level initialization of the HTTP surface does not run to
completion: executing the module statements in order stops with a
`NameError` at line 40, where `PERMANENT_SESSION_LIFETIME` is set to
`timedelta(hours=8)` — `timedelta` is only bound by the import at
line 522, which never executes.  This contradicts the claim that the
module imports successfully with every name bound at its point of use. -/
theorem C2_module_init_name_error :
    runModule moduleStmts initialEnv = .error (40, "timedelta") ∧
    moduleStmts.any (fun st => decide (st.line = 522) && st.binds.contains "timedelta") = true := by
  constructor
  · rfl
  · rfl

/-- C3: no call of `Cache.get` or `Cache.set` terminates, for any number of
expired entries and whether or not the LRU branch runs: each method takes
the single non-reentrant lock and then calls `cleanup`, which attempts to
take the same lock again, blocking the thread forever.  This contradicts
the claim that every call terminates. -/
theorem C3_cache_lock_deadlock :
    (∀ expired, lockTerminates (cache_get_prog expired) = false) ∧
    (∀ expired evict, lockTerminates (cache_set_prog expired evict) = false) := by
  refine ⟨fun expired => ?_, fun expired evict => ?_⟩ <;>
    simp [lockTerminates, cache_get_prog, cache_set_prog, cache_cleanup_prog, runLockProg]

/-- C4: `update_worker` can never complete successfully against the schema
that `create_tables` creates: its `UPDATE` statement assigns the column
`updated_at`, which the `workers` table does not have, so even a fully
valid request (existing id, fresh non-empty name, positive wage) fails —
contradicting the claim that such a call completes and stores the new name
and wage.  The second conjunct evaluates the failing input. -/
theorem C4_update_worker_never_succeeds :
    (∀ (s : Store) (wid : Nat) (name : String) (wage : ℚ),
      ∃ msg, update_worker s wid name wage = .error msg) ∧
    update_worker raviStore 1 "Ravi" 600 =
      .error "column updated_at of relation workers does not exist" := by
  constructor
  · intro s wid name wage
    unfold update_worker
    dsimp only
    split_ifs <;> exact ⟨_, rfl⟩
  · rfl

/-- C1 counterexample: for a worker with daily wage 600, one `Half Day`
row, no present days and no advances, the spec formula gives a net pay of
`0*600 + 1*600/2 - 0 = 300`, but the `/api/summary` aggregation pays
nothing for the half-day and returns a net salary of 0. -/
theorem C1_counterexample :
    (get_summary_calc 600 [c1HalfDayRow] []).net_salary = 0 ∧
    specNetPay 600
      (([c1HalfDayRow].filter (fun a => decide (a.status = "Present"))).length)
      (([c1HalfDayRow].filter (fun a => decide (a.status = "Half Day"))).length) 0 = 300 ∧
    (get_summary_calc 600 [c1HalfDayRow] []).net_salary ≠
      specNetPay 600
        (([c1HalfDayRow].filter (fun a => decide (a.status = "Present"))).length)
        (([c1HalfDayRow].filter (fun a => decide (a.status = "Half Day"))).length) 0 := by
  refine ⟨?_, ?_, ?_⟩ <;> norm_num [get_summary_calc, specNetPay, c1HalfDayRow] <;> decide

/-- C1 (amended): the payroll report's per-worker summary does satisfy the
claimed formulas — `grossPay = presentDays*dailyWage + halfDays*dailyWage/2`
and `netPay = grossPay - totalAdvances` (no floor at zero, so a negative
value is returned as is) — while the `/api/summary` endpoint credits no
half-day pay: it returns `totalEarnings = presentDays*dailyWage` and
`netPay = totalEarnings - totalAdvances`. -/
theorem C1_amended (daily_wage : ℚ) (attendance : List AttRow) (advances : List AdvRow) :
    (payroll_row_calc daily_wage attendance advances).gross_salary =
      ((attendance.countP (fun a => decide (a.status = "Present"))) : ℚ) * daily_wage +
      ((attendance.countP (fun a => decide (a.status = "Half Day"))) : ℚ) * daily_wage / 2 ∧
    (payroll_row_calc daily_wage attendance advances).net_salary =
      specNetPay daily_wage
        (attendance.countP (fun a => decide (a.status = "Present")))
        (attendance.countP (fun a => decide (a.status = "Half Day")))
        ((advances.map (fun a => a.amount)).sum) ∧
    (get_summary_calc daily_wage attendance advances).total_earnings =
      ((attendance.countP (fun a => decide (a.status = "Present"))) : ℚ) * daily_wage ∧
    (get_summary_calc daily_wage attendance advances).net_salary =
      ((attendance.countP (fun a => decide (a.status = "Present"))) : ℚ) * daily_wage -
      ((advances.map (fun a => a.amount)).sum) := by
  refine ⟨?_, ?_, ?_, ?_⟩ <;>
    simp [payroll_row_calc, get_summary_calc, specNetPay, foldl_add_amount,
      List.countP_eq_length_filter]

/-- C7 counterexample: deleting worker id 1 from a store with no workers
does not complete successfully — `delete_worker` raises
`Worker with ID 1 not found`, so the call is not idempotent on absent ids
as the claim states. -/
theorem C7_counterexample :
    delete_worker emptyStore 1 = .error ("Worker with ID " ++ toString 1 ++ " not found") ∧
    (∀ s', delete_worker emptyStore 1 ≠ .ok s') := by
  refine ⟨rfl, fun s' h => ?_⟩
  simp [delete_worker, emptyStore] at h

/-- C7 (amended): calling `delete_worker` with an id no worker has raises a
not-found error instead of completing; the existence check fails before
any `DELETE` statement runs, so the store is untouched (the operation
produces no new state). -/
theorem C7_amended (s : Store) (wid : Nat) (hw : wid ≠ 0)
    (habs : s.workers.any (fun w => decide (w.id = wid)) = false) :
    delete_worker s wid = .error ("Worker with ID " ++ toString wid ++ " not found") := by
  simp [delete_worker, hw, habs]

/-- Witness for the amended C7 at a concrete input. -/
theorem C7_amended_witness :
    (1 : Nat) ≠ 0 ∧
    emptyStore.workers.any (fun w => decide (w.id = 1)) = false ∧
    delete_worker emptyStore 1 = .error ("Worker with ID " ++ toString 1 ++ " not found") :=
  ⟨by decide, by decide, C7_amended emptyStore 1 (by decide) (by decide)⟩

/-- C10: `add_advance` rejects a non-positive amount and an amount above
the 50,000 per-transaction ceiling with a `ValueError` (surfaced as a
`ValidationError`); these checks run before the store is touched, so in
every such failure no advance row is inserted — the operation never
returns a new store. -/
theorem C10_advance_validation (s : Store) (wid : Nat) (amount : ℚ)
    (dt? : Option PDate) (note : String)
    (h : amount ≤ 0 ∨ 50000 < amount) :
    (∃ msg, add_advance s wid amount dt? note = .error msg) ∧
    (∀ s', add_advance s wid amount dt? note ≠ .ok s') := by
  have herr : ∃ msg, add_advance s wid amount dt? note = .error msg := by
    unfold add_advance
    rcases h with h | h
    · by_cases hw : wid = 0 <;> simp [hw, h]
    · by_cases hw : wid = 0
      · simp [hw]
      · have h0 : ¬ amount ≤ 0 := by linarith
        simp [hw, h0, h]
  obtain ⟨msg, hmsg⟩ := herr
  exact ⟨⟨msg, hmsg⟩, fun s' hok => by rw [hmsg] at hok; cases hok⟩

/-- Witness for C10 at concrete inputs: a negative amount and an amount
above the ceiling are both rejected without inserting a row. -/
theorem C10_advance_validation_witness :
    ((-5 : ℚ) ≤ 0 ∨ (50000 : ℚ) < -5) ∧
    (∃ msg, add_advance raviStore 1 (-5) (some ⟨2025, 6, 1⟩) "" = .error msg) ∧
    (∀ s', add_advance raviStore 1 (-5) (some ⟨2025, 6, 1⟩) "" ≠ .ok s') :=
  ⟨Or.inl (by norm_num),
   (C10_advance_validation raviStore 1 (-5) (some ⟨2025, 6, 1⟩) "" (Or.inl (by norm_num))).1,
   (C10_advance_validation raviStore 1 (-5) (some ⟨2025, 6, 1⟩) "" (Or.inl (by norm_num))).2⟩

/-- C8 counterexample: on a store with worker 1, a request with an invalid
status is answered with HTTP 500, not the claimed 400; a request naming the
absent worker 2 is answered with HTTP 500, not the claimed 404; and the
success body carries none of the claimed `message`, `holiday_warning`,
`worker_name` fields. -/
theorem C8_counterexample :
    (mark_attendance_api raviStore (some 1) (some ⟨2025, 6, 1⟩) (some "Bogus")).1 = 500 ∧
    (mark_attendance_api raviStore (some 1) (some ⟨2025, 6, 1⟩) (some "Bogus")).1 ≠ 400 ∧
    (mark_attendance_api raviStore (some 2) (some ⟨2025, 6, 1⟩) (some "Present")).1 = 500 ∧
    (mark_attendance_api raviStore (some 2) (some ⟨2025, 6, 1⟩) (some "Present")).1 ≠ 404 ∧
    (mark_attendance_api raviStore (some 1) (some ⟨2025, 6, 1⟩) (some "Present")).1 = 200 ∧
    (mark_attendance_api raviStore (some 1) (some ⟨2025, 6, 1⟩) (some "Present")).2.message = none ∧
    (mark_attendance_api raviStore (some 1) (some ⟨2025, 6, 1⟩) (some "Present")).2.holiday_warning = none ∧
    (mark_attendance_api raviStore (some 1) (some ⟨2025, 6, 1⟩) (some "Present")).2.worker_name = none := by
  refine ⟨rfl, by decide, rfl, by decide, rfl, rfl, rfl, rfl⟩

/-- C8 (amended): the mark-attendance endpoint wraps the whole operation in
one `try` whose handler returns HTTP 500 for every failure — missing
fields, invalid status and unknown worker alike, never 400 or 404 — with
body `{success: false, error: message}`; a success is HTTP 200 with the
body `{success: true}` and no `message`, `holiday_warning` or
`worker_name` field. -/
theorem C8_amended (s : Store) (wid? : Option Nat) (dt? : Option PDate)
    (status? : Option String) :
    (∀ msg, mark_attendance s wid? dt? status? = .error msg →
      mark_attendance_api s wid? dt? status? = (500, ⟨false, some msg, none, none, none⟩)) ∧
    (∀ s', mark_attendance s wid? dt? status? = .ok s' →
      mark_attendance_api s wid? dt? status? = (200, ⟨true, none, none, none, none⟩)) := by
  constructor <;> intro x h <;> simp [mark_attendance_api, h]

/-- Witness for the amended C8: the invalid-status failure and a success,
both evaluated on a concrete store. -/
theorem C8_amended_witness :
    mark_attendance_api raviStore (some 1) (some ⟨2025, 6, 1⟩) (some "Bogus") =
      (500, ⟨false, some "Invalid attendance status", none, none, none⟩) ∧
    mark_attendance_api raviStore (some 1) (some ⟨2025, 6, 1⟩) (some "Present") =
      (200, ⟨true, none, none, none, none⟩) :=
  ⟨(C8_amended raviStore (some 1) (some ⟨2025, 6, 1⟩) (some "Bogus")).1
      "Invalid attendance status" rfl,
   (C8_amended raviStore (some 1) (some ⟨2025, 6, 1⟩) (some "Present")).2
      { raviStore with attendance := upsertAtt raviStore.attendance 1 ⟨2025, 6, 1⟩ "Present" } rfl⟩

/-- The attendance key test unfolded to a proposition. -/
theorem attKeyB_true_iff (wid : Nat) (dt : PDate) (a : AttRow) :
    attKeyB wid dt a = true ↔ a.worker_id = wid ∧ a.date = dt := by
  simp [attKeyB]

/-- A freshly built row matches its own key. -/
theorem attKeyB_row (wid : Nat) (dt : PDate) (st : String) :
    attKeyB wid dt ⟨wid, dt, st⟩ = true := by
  simp [attKeyB]

/-- The conflict-update function of the upsert leaves rows with other keys
unchanged. -/
theorem map_update_id (wid : Nat) (dt : PDate) (st : String) :
    ∀ (t : List AttRow), (∀ b ∈ t, attKeyB wid dt b = false) →
    t.map (fun a => if attKeyB wid dt a then { a with status := st } else a) = t := by
  intro t
  induction t with
  | nil => intro _; rfl
  | cons b r ih =>
    intro hb
    have h1 : attKeyB wid dt b = false := hb b (by simp)
    rw [List.map_cons, if_neg (by simp [h1]), ih (fun x hx => hb x (by simp [hx]))]

/-- Filtering by a key over rows none of which match gives the empty
list. -/
theorem filter_key_none (wid : Nat) (dt : PDate) (t : List AttRow)
    (h : ∀ b ∈ t, attKeyB wid dt b = false) :
    t.filter (attKeyB wid dt) = [] := by
  induction t with
  | nil => rfl
  | cons b r ih =>
    rw [List.filter_cons, if_neg (by simp [h b (by simp)])]
    exact ih (fun x hx => h x (by simp [hx]))

/-- After an upsert into a key-unique attendance list, exactly the new row
matches the key: the upsert stores the latest status and no duplicate. -/
theorem upsertAtt_filter (wid : Nat) (dt : PDate) (st : String) :
    ∀ (l : List AttRow), attKeyNodup l →
    (upsertAtt l wid dt st).filter (attKeyB wid dt) = [⟨wid, dt, st⟩] := by
  intro l
  induction l with
  | nil =>
    intro _
    simp [upsertAtt, List.filter_cons, attKeyB_row]
  | cons a t ih =>
    intro hnodup
    rcases List.pairwise_cons.mp hnodup with ⟨ha, ht⟩
    unfold upsertAtt
    cases hk : attKeyB wid dt a with
    | true =>
      rcases (attKeyB_true_iff wid dt a).mp hk with ⟨haw, had⟩
      have htnone : ∀ b ∈ t, attKeyB wid dt b = false := by
        intro b hb
        cases hkb : attKeyB wid dt b
        · rfl
        · exact absurd ⟨haw.trans (((attKeyB_true_iff wid dt b).mp hkb).1).symm,
            had.trans (((attKeyB_true_iff wid dt b).mp hkb).2).symm⟩ (ha b hb)
      have hrow : ({ a with status := st } : AttRow) = ⟨wid, dt, st⟩ := by
        cases a
        simp only [AttRow.mk.injEq]
        exact ⟨haw, had, trivial⟩
      simp [List.any_cons, hk, map_update_id wid dt st t htnone, hrow,
        List.filter_cons, attKeyB_row, filter_key_none wid dt t htnone]
    | false =>
      cases hany : t.any (attKeyB wid dt) with
      | true =>
        have hrec := ih ht
        unfold upsertAtt at hrec
        rw [if_pos hany] at hrec
        simp [List.any_cons, hk, hany, List.filter_cons, hrec]
      | false =>
        have htnone : ∀ b ∈ t, attKeyB wid dt b = false := by
          intro b hb
          cases hkb : attKeyB wid dt b
          · rfl
          · have hcon : t.any (attKeyB wid dt) = true := List.any_eq_true.mpr ⟨b, hb, hkb⟩
            rw [hcon] at hany
            cases hany
        simp [List.any_cons, hk, hany, List.filter_append, List.filter_cons,
          attKeyB_row, filter_key_none wid dt t htnone]

/-- The upsert preserves the `UNIQUE(worker_id, date)` invariant. -/
theorem upsertAtt_nodup (wid : Nat) (dt : PDate) (st : String) (l : List AttRow)
    (h : attKeyNodup l) : attKeyNodup (upsertAtt l wid dt st) := by
  unfold upsertAtt attKeyNodup
  by_cases hany : l.any (attKeyB wid dt) = true
  case pos =>
    rw [if_pos hany, List.pairwise_map]
    refine h.imp ?_
    intro a b hab
    by_cases ha : attKeyB wid dt a = true <;> by_cases hb : attKeyB wid dt b = true <;>
      simp [ha, hb] <;> exact fun h1 h2 => hab ⟨h1, h2⟩
  case neg =>
    have hany' : l.any (attKeyB wid dt) = false := by simpa using hany
    rw [if_neg hany]
    rw [List.pairwise_append]
    refine ⟨h, List.pairwise_singleton _ _, ?_⟩
    intro a haMem b hbMem
    have hb : b = ⟨wid, dt, st⟩ := by simpa using hbMem
    subst hb
    have hka : attKeyB wid dt a = false := by
      cases hka : attKeyB wid dt a
      · rfl
      · have hcon : l.any (attKeyB wid dt) = true := List.any_eq_true.mpr ⟨a, haMem, hka⟩
        rw [hcon] at hany'
        cases hany'
    intro hcon
    exact absurd ((attKeyB_true_iff wid dt a).mpr ⟨hcon.1, hcon.2⟩) (by simp [hka])

/-- Deleting by key preserves the uniqueness invariant. -/
theorem filter_nodup (p : AttRow → Bool) (l : List AttRow)
    (h : attKeyNodup l) : attKeyNodup (l.filter p) :=
  h.sublist (List.filter_sublist l)

/-- After removing the key, no row with the key remains. -/
theorem filter_key_removed (wid : Nat) (dt : PDate) (l : List AttRow) :
    (l.filter (fun a => ¬ attKeyB wid dt a)).filter (attKeyB wid dt) = [] := by
  apply filter_key_none
  intro b hb
  have hmem := List.mem_filter.mp hb
  cases hkb : attKeyB wid dt b
  · rfl
  · rw [hkb] at hmem
    simpa using hmem.2

/-- Evaluation of `mark_attendance` on a valid non-`unmarked` status for an
existing worker: the result is the store with the attendance upserted (and
the other tables untouched). -/
theorem mark_attendance_ok (s : Store) (wid : Nat) (dt : PDate) (st : String)
    (hw : wid ≠ 0) (hex : s.workers.any (fun w => decide (w.id = wid)) = true)
    (hst : st ∈ validStatuses) (hun : st ≠ "unmarked") :
    mark_attendance s (some wid) (some dt) (some st) =
      .ok { s with attendance := upsertAtt s.attendance wid dt st } := by
  simp [mark_attendance, hw, hex, hst, hun]

/-- Evaluation of `mark_attendance` on the `unmarked` sentinel for an
existing worker: the row with the key is deleted. -/
theorem mark_attendance_unmarked (s : Store) (wid : Nat) (dt : PDate)
    (hw : wid ≠ 0) (hex : s.workers.any (fun w => decide (w.id = wid)) = true) :
    mark_attendance s (some wid) (some dt) (some "unmarked") =
      .ok { s with attendance := s.attendance.filter (fun a => ¬ attKeyB wid dt a) } := by
  have hc : "unmarked" ∈ validStatuses := by decide
  simp [mark_attendance, hw, hex, hc]

/-- C5: starting from a store satisfying the `UNIQUE(worker_id, date)`
invariant, marking the same (worker, date) twice with two real statuses
succeeds both times, leaves exactly one row with that key carrying the
latest status, and keeps the invariant; marking the same key `unmarked`
afterwards removes the row entirely (no sentinel value is stored), again
keeping the invariant. -/
theorem C5_attendance_upsert (s : Store) (wid : Nat) (dt : PDate) (s1 s2 : String)
    (hw : wid ≠ 0)
    (hex : s.workers.any (fun w => decide (w.id = wid)) = true)
    (h1 : s1 ∈ (["Present", "Half Day", "Absent"] : List String))
    (h2 : s2 ∈ (["Present", "Half Day", "Absent"] : List String))
    (hinv : attKeyNodup s.attendance) :
    ∃ s' s'' s''' : Store,
      mark_attendance s (some wid) (some dt) (some s1) = .ok s' ∧
      mark_attendance s' (some wid) (some dt) (some s2) = .ok s'' ∧
      s''.attendance.filter (attKeyB wid dt) = [⟨wid, dt, s2⟩] ∧
      attKeyNodup s'.attendance ∧
      attKeyNodup s''.attendance ∧
      mark_attendance s'' (some wid) (some dt) (some "unmarked") = .ok s''' ∧
      s'''.attendance.filter (attKeyB wid dt) = [] ∧
      attKeyNodup s'''.attendance := by
  have hmem1 : s1 ∈ validStatuses ∧ s1 ≠ "unmarked" := by
    simp only [List.mem_cons, List.not_mem_nil, or_false] at h1
    rcases h1 with rfl | rfl | rfl <;> exact ⟨by decide, by decide⟩
  have hmem2 : s2 ∈ validStatuses ∧ s2 ≠ "unmarked" := by
    simp only [List.mem_cons, List.not_mem_nil, or_false] at h2
    rcases h2 with rfl | rfl | rfl <;> exact ⟨by decide, by decide⟩
  have hnodup1 : attKeyNodup (upsertAtt s.attendance wid dt s1) :=
    upsertAtt_nodup wid dt s1 s.attendance hinv
  have hnodup2 : attKeyNodup (upsertAtt (upsertAtt s.attendance wid dt s1) wid dt s2) :=
    upsertAtt_nodup wid dt s2 _ hnodup1
  refine ⟨{ s with attendance := upsertAtt s.attendance wid dt s1 },
    { s with attendance := upsertAtt (upsertAtt s.attendance wid dt s1) wid dt s2 },
    { s with attendance := List.filter (fun a => ¬ attKeyB wid dt a) (upsertAtt (upsertAtt s.attendance wid dt s1) wid dt s2) },
    mark_attendance_ok s wid dt s1 hw hex hmem1.1 hmem1.2,
    mark_attendance_ok _ wid dt s2 hw hex hmem2.1 hmem2.2,
    upsertAtt_filter wid dt s2 _ hnodup1,
    hnodup1,
    hnodup2,
    mark_attendance_unmarked _ wid dt hw hex,
    filter_key_removed wid dt _,
    filter_nodup _ _ hnodup2⟩

/-- Witness for C5 at a concrete input: worker 1 of `raviStore`, date
2025-06-01, statuses `Present` then `Half Day` then `unmarked`. -/
theorem C5_attendance_upsert_witness :
    ∃ s' s'' s''' : Store,
      mark_attendance raviStore (some 1) (some ⟨2025, 6, 1⟩) (some "Present") = .ok s' ∧
      mark_attendance s' (some 1) (some ⟨2025, 6, 1⟩) (some "Half Day") = .ok s'' ∧
      s''.attendance.filter (attKeyB 1 ⟨2025, 6, 1⟩) = [⟨1, ⟨2025, 6, 1⟩, "Half Day"⟩] ∧
      attKeyNodup s'.attendance ∧
      attKeyNodup s''.attendance ∧
      mark_attendance s'' (some 1) (some ⟨2025, 6, 1⟩) (some "unmarked") = .ok s''' ∧
      s'''.attendance.filter (attKeyB 1 ⟨2025, 6, 1⟩) = [] ∧
      attKeyNodup s'''.attendance :=
  C5_attendance_upsert raviStore 1 ⟨2025, 6, 1⟩ "Present" "Half Day"
    (by decide) (by decide) (by decide) (by decide) (by simp [raviStore, attKeyNodup])

/-- The classification loop, characterized: folding `classify_day` over a
list of day keys adds to each counter the number of days satisfying the
corresponding spec-side predicate. -/
theorem classify_day_foldl (hols : List String) (att : List (String × String)) :
    ∀ (l : List String) (acc : DayCounts),
    l.foldl (classify_day hols att) acc =
      ⟨acc.present + l.countP (isPresB hols att),
       acc.absent + l.countP (isAbsB hols att),
       acc.holiday + l.countP (isHolB hols),
       acc.half + l.countP (isHalfB hols att)⟩ := by
  intro l
  induction l with
  | nil =>
    intro acc
    cases acc
    simp [List.countP_nil]
  | cons d t ih =>
    intro acc
    rw [List.foldl_cons, ih]
    cases acc with
    | mk p a hol hf =>
      unfold classify_day
      by_cases hH : d ∈ hols
      · simp [hH, isHolB, isPresB, isHalfB, isAbsB, List.countP_cons]
        omega
      · cases hdg : dictGet att d with
        | none =>
          simp [hH, hdg, isHolB, isPresB, isHalfB, isAbsB, List.countP_cons]
          omega
        | some st =>
          by_cases hp : st = "Present"
          · subst hp
            simp [hH, hdg, isHolB, isPresB, isHalfB, isAbsB, List.countP_cons]
            omega
          · by_cases hh : st = "Half Day"
            · subst hh
              simp [hH, hdg, isHolB, isPresB, isHalfB, isAbsB, List.countP_cons]
              omega
            · by_cases hab : st = "Absent"
              · subst hab
                simp [hH, hdg, isHolB, isPresB, isHalfB, isAbsB, List.countP_cons]
                omega
              · simp [hH, hdg, hp, hh, hab, isHolB, isPresB, isHalfB, isAbsB,
                  List.countP_cons]
                omega

/-- C6: in the attendance-percentage report, the counters of each worker's
row are exactly the numbers of calendar days classified holiday-first,
then by recorded status, with unmarked (or unrecognized) days counted
absent; `workingDays = daysInMonth - holidayCount`; and the percentage is
`(present + 0.5*half) / workingDays * 100` when `workingDays > 0` (the
handler rounds it to one decimal for the payload) and 0 — not a division
error — when `workingDays = 0`. -/
theorem C6_attendance_report (year month dim : Nat) (hols : List String)
    (att : List (String × String)) :
    (attendance_report_row year month dim hols att).present_days =
      (month_day_keys year month dim).countP (isPresB hols att) ∧
    (attendance_report_row year month dim hols att).half_days =
      (month_day_keys year month dim).countP (isHalfB hols att) ∧
    (attendance_report_row year month dim hols att).absent_days =
      (month_day_keys year month dim).countP (isAbsB hols att) ∧
    (attendance_report_row year month dim hols att).holidays =
      (month_day_keys year month dim).countP (isHolB hols) ∧
    (attendance_report_row year month dim hols att).total_working_days =
      dim - (month_day_keys year month dim).countP (isHolB hols) ∧
    (0 < dim - (month_day_keys year month dim).countP (isHolB hols) →
      (attendance_report_row year month dim hols att).attendance_percentage =
        pyRound1 ((((month_day_keys year month dim).countP (isPresB hols att) : ℚ) +
          ((month_day_keys year month dim).countP (isHalfB hols att) : ℚ) * (1/2)) /
          ((dim - (month_day_keys year month dim).countP (isHolB hols) : Nat) : ℚ) * 100)) ∧
    (dim - (month_day_keys year month dim).countP (isHolB hols) = 0 →
      (attendance_report_row year month dim hols att).attendance_percentage = 0) := by
  have hc : attendance_counts year month dim hols att =
      ⟨(month_day_keys year month dim).countP (isPresB hols att),
       (month_day_keys year month dim).countP (isAbsB hols att),
       (month_day_keys year month dim).countP (isHolB hols),
       (month_day_keys year month dim).countP (isHalfB hols att)⟩ := by
    unfold attendance_counts
    rw [classify_day_foldl hols att (month_day_keys year month dim) ⟨0, 0, 0, 0⟩]
    simp
  refine ⟨?_, ?_, ?_, ?_, ?_, ?_, ?_⟩
  · simp [attendance_report_row, hc]
  · simp [attendance_report_row, hc]
  · simp [attendance_report_row, hc]
  · simp [attendance_report_row, hc]
  · simp [attendance_report_row, hc]
  · intro hpos
    simp only [attendance_report_row, hc, attendance_percentage_calc]
    rw [if_pos hpos]
  · intro hzero
    simp only [attendance_report_row, hc, attendance_percentage_calc, hzero]
    norm_num [pyRound1, pyRound]

/-- Witness for C6 at concrete inputs: a 3-day month with one holiday and
one present day (positive working days), and a 2-day month that is all
holidays (zero working days, percentage 0). -/
theorem C6_attendance_report_witness :
    (0 < 3 - (month_day_keys 2025 6 3).countP (isHolB ["2025-06-01"])) ∧
    (attendance_report_row 2025 6 3 ["2025-06-01"] [("2025-06-02", "Present")]).attendance_percentage =
      pyRound1 ((((month_day_keys 2025 6 3).countP (isPresB ["2025-06-01"] [("2025-06-02", "Present")]) : ℚ) +
        ((month_day_keys 2025 6 3).countP (isHalfB ["2025-06-01"] [("2025-06-02", "Present")]) : ℚ) * (1/2)) /
        ((3 - (month_day_keys 2025 6 3).countP (isHolB ["2025-06-01"]) : Nat) : ℚ) * 100) ∧
    (2 - (month_day_keys 2025 6 2).countP (isHolB ["2025-06-01", "2025-06-02"]) = 0) ∧
    (attendance_report_row 2025 6 2 ["2025-06-01", "2025-06-02"] []).attendance_percentage = 0 :=
  ⟨by decide,
   (C6_attendance_report 2025 6 3 ["2025-06-01"] [("2025-06-02", "Present")]).2.2.2.2.2.1 (by decide),
   by decide,
   (C6_attendance_report 2025 6 2 ["2025-06-01", "2025-06-02"] []).2.2.2.2.2.2 (by decide)⟩

/-- Filtering by `q` after filtering by an incompatible `p` leaves
nothing. -/
theorem filter_filter_nil {α : Type} (p q : α → Bool)
    (h : ∀ a, p a = true → q a = false) :
    ∀ l : List α, (l.filter p).filter q = [] := by
  intro l
  induction l with
  | nil => rfl
  | cons a t ih =>
    by_cases hp : p a = true
    · rw [List.filter_cons, if_pos hp, List.filter_cons, if_neg (by simp [h a hp])]
      exact ih
    · rw [List.filter_cons, if_neg hp]
      exact ih

/-- Filtering by `p` first does not change a filter by a stronger `q`. -/
theorem filter_filter_of_imp {α : Type} (p q : α → Bool)
    (h : ∀ a, q a = true → p a = true) :
    ∀ l : List α, (l.filter p).filter q = l.filter q := by
  intro l
  induction l with
  | nil => rfl
  | cons a t ih =>
    by_cases hq : q a = true
    · rw [List.filter_cons, if_pos (h a hq), List.filter_cons, if_pos hq,
        List.filter_cons, if_pos hq, ih]
    · by_cases hp : p a = true
      · rw [List.filter_cons, if_pos hp, List.filter_cons, if_neg hq,
          List.filter_cons, if_neg hq, ih]
      · rw [List.filter_cons, if_neg hp, List.filter_cons, if_neg hq, ih]

/-- C9: deleting an existing worker removes exactly that worker's rows.
The result store keeps every attendance and advance row of other workers
and all holidays; month fetches for the deleted worker return empty lists;
month fetches for any other worker are unchanged. -/
theorem C9_delete_worker_frame (s : Store) (wid : Nat) (hw : wid ≠ 0)
    (hex : s.workers.any (fun w => decide (w.id = wid)) = true) :
    ∃ s', delete_worker s wid = .ok s' ∧
      s'.attendance = s.attendance.filter (fun a => ¬ decide (a.worker_id = wid)) ∧
      s'.advances = s.advances.filter (fun a => ¬ decide (a.worker_id = wid)) ∧
      s'.holidays = s.holidays ∧
      (∀ year month, get_attendance s' wid year month = []) ∧
      (∀ year month, get_advances s' wid year month = []) ∧
      (∀ a ∈ s.attendance, a.worker_id ≠ wid → a ∈ s'.attendance) ∧
      (∀ a ∈ s.advances, a.worker_id ≠ wid → a ∈ s'.advances) ∧
      (∀ wid2, wid2 ≠ wid → ∀ year month,
        get_attendance s' wid2 year month = get_attendance s wid2 year month ∧
        get_advances s' wid2 year month = get_advances s wid2 year month) := by
  have hdel : delete_worker s wid = .ok
      { s with
        attendance := s.attendance.filter (fun a => ¬ decide (a.worker_id = wid)),
        advances := s.advances.filter (fun a => ¬ decide (a.worker_id = wid)),
        workers := s.workers.filter (fun w => ¬ decide (w.id = wid)) } := by
    simp [delete_worker, hw, hex]
  refine ⟨_, hdel, rfl, rfl, rfl, ?_, ?_, ?_, ?_, ?_⟩
  · intro year month
    exact filter_filter_nil _ _ (fun a hp => by
      simp at hp
      simp [hp]) s.attendance
  · intro year month
    exact filter_filter_nil _ _ (fun a hp => by
      simp at hp
      simp [hp]) s.advances
  · intro a ha hne
    exact List.mem_filter.mpr ⟨ha, by simp [hne]⟩
  · intro a ha hne
    exact List.mem_filter.mpr ⟨ha, by simp [hne]⟩
  · intro wid2 hne year month
    constructor
    · exact filter_filter_of_imp _ _ (fun a hq => by
        simp at hq ⊢
        rw [hq.1.1]
        exact hne) s.attendance
    · exact filter_filter_of_imp _ _ (fun a hq => by
        simp at hq ⊢
        rw [hq.1.1]
        exact hne) s.advances

/-- Witness for C9: deleting worker 1 of `twoWorkerStore`. -/
theorem C9_delete_worker_frame_witness :
    (1 : Nat) ≠ 0 ∧
    twoWorkerStore.workers.any (fun w => decide (w.id = 1)) = true ∧
    (∃ s', delete_worker twoWorkerStore 1 = .ok s' ∧
      s'.attendance = twoWorkerStore.attendance.filter (fun a => ¬ decide (a.worker_id = 1)) ∧
      s'.advances = twoWorkerStore.advances.filter (fun a => ¬ decide (a.worker_id = 1)) ∧
      s'.holidays = twoWorkerStore.holidays ∧
      (∀ year month, get_attendance s' 1 year month = []) ∧
      (∀ year month, get_advances s' 1 year month = []) ∧
      (∀ a ∈ twoWorkerStore.attendance, a.worker_id ≠ 1 → a ∈ s'.attendance) ∧
      (∀ a ∈ twoWorkerStore.advances, a.worker_id ≠ 1 → a ∈ s'.advances) ∧
      (∀ wid2, wid2 ≠ 1 → ∀ year month,
        get_attendance s' wid2 year month = get_attendance twoWorkerStore wid2 year month ∧
        get_advances s' wid2 year month = get_advances twoWorkerStore wid2 year month)) :=
  ⟨by decide, by decide, C9_delete_worker_frame twoWorkerStore 1 (by decide) (by decide)⟩

end Payroll
